import Mathlib

set_option maxHeartbeats 1000000
set_option maxRecDepth 8192

/-!
Shallow embedding of the chat server in `src/app.py` (class `ChatServer`).

Modelling conventions:
* The Session Registry `self.clients` (a Python 3 `dict` mapping
  `username -> (ip, conn)`, iterated in insertion order) is modelled as an
  insertion-ordered association list `Registry = List (String × Client)`.
  Dict keys are unique, so theorems carry a `Nodup` hypothesis on the keys
  where it matters.
* A connection handle (`socket`) is identified by a natural number
  `Client.connId`; distinct sessions hold distinct sockets, expressed as a
  `Nodup` hypothesis on the connection ids where it matters.
* I/O effects are reified as a trace of `Event`s: `conn.sendall(msg)` either
  delivers (`Event.sent`) or raises `ConnectionResetError`/`BrokenPipeError`
  (`Event.sendFailed`), decided by an environment `fail : Nat → Bool` on the
  connection id; `conn.close()` is `Event.closed`.
* `datetime.now().strftime(...)` is an input: the already formatted timestamp
  string `ts` is passed explicitly.
* Python `str.strip()` is `pyStrip`, `str.startswith` is `pyStartsWith`,
  `str.split(sep, maxsplit)` is `pySplit`, `str.join` is `pyJoin`; these
  mirror the CPython semantics on the ASCII data the server handles.
-/

/-- One connected client as stored in `self.clients`: the peer ip string and
the identity of its socket handle. -/
structure Client where
  ip : String
  connId : Nat
  deriving DecidableEq

/-- The Session Registry `self.clients`, an insertion-ordered map
`username -> (ip, conn)`. -/
abbrev Registry := List (String × Client)

/-- Observable socket effects of the server code. -/
inductive Event where
  | sent (connId : Nat) (msg : String)
  | sendFailed (connId : Nat) (msg : String)
  | closed (connId : Nat)
  deriving DecidableEq

/-- True exactly on `Event.closed`. -/
def Event.isClose : Event → Bool
  | .closed _ => true
  | _ => false

/-- Whether the per-connection read loop of `handle_client` continues
(`stay`) or breaks out to the cleanup code (`stop`). -/
inductive LoopCtl where
  | stay
  | stop
  deriving DecidableEq

/-- Outcome of the username negotiation prologue of `handle_client`. -/
inductive NegResult where
  | timedOut
  | emptyName
  | taken
  | registered (username : String)
  deriving DecidableEq

/-- `conn.sendall(msg)` on connection `c`: delivers unless the environment
says the peer has reset the connection. -/
def sendall (fail : Nat → Bool) (c : Nat) (msg : String) : Event :=
  if fail c then Event.sendFailed c msg else Event.sent c msg

/-- Boolean prefix test on character lists (helper for `pyStartsWith`). -/
def listPref : List Char → List Char → Bool
  | [], _ => true
  | _ :: _, [] => false
  | p :: ps, c :: cs => p == c && listPref ps cs

/-- Python `s.startswith(p)`. -/
def pyStartsWith (s p : String) : Bool := listPref p.data s.data

/-- Python `s.strip()`: remove leading and trailing whitespace. -/
def pyStrip (s : String) : String :=
  String.mk (((s.data.dropWhile Char.isWhitespace).reverse.dropWhile Char.isWhitespace).reverse)

/-- Helper for `pySplit`: splits `l` on `sep` with at most `n` splits left,
`acc` holding the (reversed) current token. -/
def pySplitAux (sep : Char) : List Char → Nat → List Char → List (List Char)
  | [], _, acc => [acc.reverse]
  | c :: rest, 0, acc => [acc.reverse ++ c :: rest]
  | c :: rest, Nat.succ n, acc =>
      if c == sep then acc.reverse :: pySplitAux sep rest n []
      else pySplitAux sep rest (Nat.succ n) (c :: acc)

/-- Python `s.split(sep, maxsplit)` with an explicit separator: at most
`maxsplit` splits, empty tokens kept. -/
def pySplit (sep : Char) (maxsplit : Nat) (s : String) : List String :=
  (pySplitAux sep s.data maxsplit []).map String.mk

/-- Python `sep.join(xs)`. -/
def pyJoin (sep : String) : List String → String
  | [] => ""
  | [x] => x
  | x :: y :: rest => x ++ sep ++ pyJoin sep (y :: rest)

/-- First registry entry with the given username, if any
(Python `self.clients[u]` after an `in` check succeeds). -/
def findUser (clients : Registry) (u : String) : Option (String × Client) :=
  clients.find? (fun p => p.1 == u)

/-- Python `self.clients[u]`, as an option. -/
def lookupUser (clients : Registry) (u : String) : Option Client :=
  (findUser clients u).map Prod.snd

/-- Python `u in self.clients`. -/
def containsUser (clients : Registry) (u : String) : Bool :=
  clients.any (fun p => p.1 == u)

/-- Python `del self.clients[u]` (dict keys are unique, so removing every
entry with key `u` agrees with deleting the one entry). -/
def eraseUser (clients : Registry) (u : String) : Registry :=
  clients.filter (fun p => !(p.1 == u))

/-- The formatted log entry built by `store_message`:
`f"[{timestamp}] {sender}: {message}"`. -/
def mkEntry (ts sender message : String) : String :=
  "[" ++ ts ++ "] " ++ sender ++ ": " ++ message

/-- `ChatServer.store_message` (src/app.py:18-23): stamp, append to
`self.chat_history`, return the entry. The current-time string `ts` is an
input of the model. -/
def store_message (history : List String) (ts sender message : String) :
    List String × String :=
  let entry := mkEntry ts sender message
  (history ++ [entry], entry)

/-- `ChatServer.get_help` (src/app.py:25-32), transcribed verbatim. -/
def get_help : String :=
  "\nAvailable commands:\n" ++
  "  list                       → list all connected users\n" ++
  "  broadcast <msg>            → send message to everyone\n" ++
  "  send <username> <msg>      → private message to user\n" ++
  "  exit                       → disconnect\n"

/-- The `for username, (_, conn) in self.clients.items()` loop of
`broadcast_message` (src/app.py:37-43): returns the trace of `sendall`
events and the `disconnected_users` list, in iteration order. -/
def broadcastLoop (fail : Nat → Bool) (message : String) (exclude : Option String) :
    Registry → List Event × List String
  | [] => ([], [])
  | (u, cl) :: rest =>
      if exclude = some u then broadcastLoop fail message exclude rest
      else if fail cl.connId then
        (Event.sendFailed cl.connId message :: (broadcastLoop fail message exclude rest).1,
         u :: (broadcastLoop fail message exclude rest).2)
      else
        (Event.sent cl.connId message :: (broadcastLoop fail message exclude rest).1,
         (broadcastLoop fail message exclude rest).2)

/-- The `for username in disconnected_users` removal loop of
`broadcast_message` (src/app.py:46-50): close and delete each recorded
username still present, after the send pass has completed. -/
def removeDisconnected : Registry → List String → Registry × List Event
  | clients, [] => (clients, [])
  | clients, u :: rest =>
      match findUser clients u with
      | some p =>
          ((removeDisconnected (eraseUser clients u) rest).1,
           Event.closed p.2.connId :: (removeDisconnected (eraseUser clients u) rest).2)
      | none => removeDisconnected clients rest

/-- `ChatServer.broadcast_message` (src/app.py:34-50): send to every
non-excluded session, then evict the sessions whose delivery raised. -/
def broadcast_message (fail : Nat → Bool) (clients : Registry)
    (message : String) (exclude : Option String) : Registry × List Event :=
  ((removeDisconnected clients (broadcastLoop fail message exclude clients).2).1,
   (broadcastLoop fail message exclude clients).1 ++
     (removeDisconnected clients (broadcastLoop fail message exclude clients).2).2)

/-- Username negotiation prologue of `handle_client` (src/app.py:55-79).
`recvResult = none` models `conn.recv` raising `socket.timeout` (caught by
the top-level `except`, after which `finally` closes the socket without any
reply); `some raw` is the received text. A second `conn.close()` on an
already closed socket in `finally` is a no-op and is not re-recorded. -/
def negotiate (fail : Nat → Bool) (clients : Registry) (history : List String)
    (ts ip : String) (connId : Nat) (recvResult : Option String) :
    NegResult × Registry × List String × List Event :=
  match recvResult with
  | none => (NegResult.timedOut, clients, history, [Event.closed connId])
  | some raw =>
      let username := pyStrip raw
      if username = "" then (NegResult.emptyName, clients, history, [Event.closed connId])
      else if containsUser clients username then
        (NegResult.taken, clients, history,
          [sendall fail connId "Username already taken. Disconnecting.", Event.closed connId])
      else
        (NegResult.registered username,
         (broadcast_message fail (clients ++ [(username, ⟨ip, connId⟩)])
            ("[Server] " ++ username ++ " joined the chat") (some username)).1,
         (store_message history ts "Server" (username ++ "@" ++ ip ++ " joined the chat")).1,
         (broadcast_message fail (clients ++ [(username, ⟨ip, connId⟩)])
            ("[Server] " ++ username ++ " joined the chat") (some username)).2 ++
           [sendall fail connId
             ("Welcome to the chat, " ++ username ++ "! Type 'help' for commands.")])

/-- A `conn.sendall(msg)` reply to the handling connection itself inside the
`while` body: if it raises, the exception propagates to the loop-level
`except (ConnectionResetError, BrokenPipeError)` which breaks the loop. -/
def replyTo (fail : Nat → Bool) (connId : Nat) (msg : String) : LoopCtl × List Event :=
  if fail connId then (LoopCtl.stop, [Event.sendFailed connId msg])
  else (LoopCtl.stay, [Event.sent connId msg])

/-- One iteration of the Active-state read loop of `handle_client`
(src/app.py:86-126) on received text `raw`: strip, break on empty, log the
line, then dispatch `list` / `broadcast ` / `send ` / `exit` / help.
In the `broadcast ` branch, `data.replace("broadcast ", "", 1)` removes the
first occurrence of the pattern, which under the `startswith` guard is
exactly the 10-character prefix. -/
def processLine (fail : Nat → Bool) (clients : Registry) (history : List String)
    (ts username ip : String) (connId : Nat) (raw : String) :
    LoopCtl × Registry × List String × List Event :=
  let data := pyStrip raw
  if data = "" then (LoopCtl.stop, clients, history, [])
  else
    let history2 := (store_message history ts (username ++ "@" ++ ip) data).1
    if data = "list" then
      ((replyTo fail connId ("Connected clients:\n" ++
          pyJoin "\n" (clients.map (fun p => "  " ++ p.1 ++ "@" ++ p.2.ip)))).1,
       clients, history2,
       (replyTo fail connId ("Connected clients:\n" ++
          pyJoin "\n" (clients.map (fun p => "  " ++ p.1 ++ "@" ++ p.2.ip)))).2)
    else if pyStartsWith data "broadcast " then
      ((LoopCtl.stay,
        (broadcast_message fail clients
          ("[BROADCAST from " ++ username ++ "] " ++ String.mk (data.data.drop 10))
          (some username)).1,
        history2,
        (broadcast_message fail clients
          ("[BROADCAST from " ++ username ++ "] " ++ String.mk (data.data.drop 10))
          (some username)).2))
    else if pyStartsWith data "send " then
      match pySplit ' ' 2 data with
      | [_, target, msg] =>
          match lookupUser clients target with
          | some tcl =>
              if fail tcl.connId then
                ((replyTo fail connId ("User " ++ target ++ " is not connected.")).1,
                 clients, history2,
                 Event.sendFailed tcl.connId ("[Private from " ++ username ++ "] " ++ msg) ::
                   (replyTo fail connId ("User " ++ target ++ " is not connected.")).2)
              else
                (LoopCtl.stay, clients, history2,
                 [Event.sent tcl.connId ("[Private from " ++ username ++ "] " ++ msg)])
          | none =>
              ((replyTo fail connId ("User " ++ target ++ " not found.")).1,
               clients, history2,
               (replyTo fail connId ("User " ++ target ++ " not found.")).2)
      | _ =>
          ((replyTo fail connId "Usage: send <username> <message>").1,
           clients, history2,
           (replyTo fail connId "Usage: send <username> <message>").2)
    else if data = "exit" then (LoopCtl.stop, clients, history2, [])
    else
      ((replyTo fail connId get_help).1, clients, history2,
       (replyTo fail connId get_help).2)

/-- The `finally` cleanup of `handle_client` (src/app.py:135-142): if the
session is registered, log the leave event, broadcast the leave announcement
excluding the leaving user, delete the registry entry; always close the
connection. -/
def cleanup (fail : Nat → Bool) (clients : Registry) (history : List String)
    (ts username ip : String) (connId : Nat) :
    Registry × List String × List Event :=
  if username != "" && containsUser clients username then
    (eraseUser
       (broadcast_message fail clients ("[Server] " ++ username ++ " left the chat")
         (some username)).1 username,
     (store_message history ts "Server" (username ++ "@" ++ ip ++ " left the chat")).1,
     (broadcast_message fail clients ("[Server] " ++ username ++ " left the chat")
         (some username)).2 ++ [Event.closed connId])
  else (clients, history, [Event.closed connId])

/-- Sample registry used by witness theorems. -/
def sampleClients : Registry :=
  [("alice", ⟨"10.0.0.1", 1⟩), ("bob", ⟨"10.0.0.2", 2⟩), ("carol", ⟨"10.0.0.3", 3⟩)]

/-- Environment in which no connection fails. -/
def noFail : Nat → Bool := fun _ => false

/-- Environment in which exactly bob's connection (id 2) fails. -/
def failBob : Nat → Bool := fun c => c == 2

example : pyStrip "  hello  " = "hello" := by decide
example : pySplit ' ' 2 "send bob hi there" = ["send", "bob", "hi there"] := by decide
example : pySplit ' ' 2 "send bob" = ["send", "bob"] := by decide
example : pySplit ' ' 2 "send  x" = ["send", "", "x"] := by decide
example : pyStartsWith "send bob hi" "send " = true := by decide
example :
    broadcast_message noFail sampleClients "hi" (some "alice") =
      (sampleClients, [Event.sent 2 "hi", Event.sent 3 "hi"]) := by decide
example :
    broadcast_message failBob sampleClients "hi" (some "alice") =
      ([("alice", ⟨"10.0.0.1", 1⟩), ("carol", ⟨"10.0.0.3", 3⟩)],
       [Event.sendFailed 2 "hi", Event.sent 3 "hi", Event.closed 2]) := by decide
example :
    processLine noFail sampleClients [] "T" "alice" "10.0.0.1" 1 "send bob hi there" =
      (LoopCtl.stay, sampleClients, ["[T] alice@10.0.0.1: send bob hi there"],
       [Event.sent 2 "[Private from alice] hi there"]) := by decide
example :
    processLine noFail sampleClients [] "T" "alice" "10.0.0.1" 1 " " =
      (LoopCtl.stop, sampleClients, [], []) := by decide
example :
    (processLine noFail sampleClients [] "T" "alice" "10.0.0.1" 1 "hello").2.2.2 =
      [Event.sent 1 get_help] := by decide

/-! ### String helper lemmas -/

/-- `listPref p l` holds exactly when `p` is a prefix of `l`. -/
theorem listPref_iff (p l : List Char) : listPref p l = true ↔ ∃ t, l = p ++ t := by
  induction p generalizing l with
  | nil => simp [listPref]
  | cons a ps ih =>
    cases l with
    | nil => simp [listPref]
    | cons c cs =>
      simp only [listPref, Bool.and_eq_true, beq_iff_eq, ih, List.cons_append, List.cons.injEq]
      constructor
      · rintro ⟨h1, t, h2⟩
        exact ⟨t, h1.symm, h2⟩
      · rintro ⟨t, h1, h2⟩
        exact ⟨h1.symm, t, h2⟩

/-- `pyStartsWith` in terms of list append. -/
theorem pyStartsWith_iff (s p : String) :
    pyStartsWith s p = true ↔ ∃ t, s.data = p.data ++ t :=
  listPref_iff p.data s.data

/-- A line recognized as a `send ` command is nonempty, is not `list`, is not
`exit`, and is not a `broadcast ` command, so the dispatcher reaches the
`send` branch. -/
theorem sendPref_facts (data : String) (h : pyStartsWith data "send " = true) :
    data ≠ "" ∧ data ≠ "list" ∧ data ≠ "exit" ∧ pyStartsWith data "broadcast " = false := by
  obtain ⟨t, ht⟩ := (pyStartsWith_iff data "send ").1 h
  refine ⟨?_, ?_, ?_, ?_⟩
  · intro h0
    rw [h0] at ht
    exact absurd ht (by simp)
  · intro h0
    rw [h0] at h
    exact absurd h (by decide)
  · intro h0
    rw [h0] at h
    exact absurd h (by decide)
  · cases hb : pyStartsWith data "broadcast " with
    | false => rfl
    | true =>
      obtain ⟨t2, ht2⟩ := (pyStartsWith_iff data "broadcast ").1 hb
      rw [ht] at ht2
      exact absurd ht2 (by simp)

/-- `pySplitAux` produces at most `n + 1` tokens. -/
theorem pySplitAux_length_le (sep : Char) :
    ∀ (l : List Char) (n : Nat) (acc : List Char),
      (pySplitAux sep l n acc).length ≤ n + 1 := by
  intro l
  induction l with
  | nil =>
    intro n acc
    simp [pySplitAux]
  | cons c rest ih =>
    intro n acc
    cases n with
    | zero => simp [pySplitAux]
    | succ n =>
      simp only [pySplitAux]
      by_cases h : (c == sep) = true
      · rw [if_pos h]
        simpa using Nat.succ_le_succ (ih n [])
      · rw [if_neg h]
        exact ih (Nat.succ n) (c :: acc)

/-- `str.split(sep, maxsplit)` yields at most `maxsplit + 1` tokens. -/
theorem pySplit_length_le (sep : Char) (maxsplit : Nat) (s : String) :
    (pySplit sep maxsplit s).length ≤ maxsplit + 1 := by
  simpa [pySplit] using pySplitAux_length_le sep s.data maxsplit []

/-! ### Registry helper lemmas -/

/-- Unfolding `findUser` success: the found entry is in the registry and has
the requested key. -/
theorem findUser_eq_some (clients : Registry) (u : String) (p : String × Client)
    (h : findUser clients u = some p) : p ∈ clients ∧ p.1 = u := by
  refine ⟨List.mem_of_find?_eq_some h, ?_⟩
  have := List.find?_some h
  simpa using this

/-- Unfolding `findUser` failure: no entry has the requested key. -/
theorem findUser_eq_none (clients : Registry) (u : String)
    (h : findUser clients u = none) : ∀ cl, (u, cl) ∉ clients := by
  intro cl hmem
  have := List.find?_eq_none.mp h _ hmem
  simp at this

/-- `containsUser` agrees with membership of the key. -/
theorem containsUser_iff (clients : Registry) (u : String) :
    containsUser clients u = true ↔ ∃ cl, (u, cl) ∈ clients := by
  simp only [containsUser, List.any_eq_true, beq_iff_eq]
  constructor
  · rintro ⟨⟨a, b⟩, hp, rfl⟩
    exact ⟨b, hp⟩
  · rintro ⟨cl, h⟩
    exact ⟨(u, cl), h, rfl⟩

/-- Membership after `eraseUser`. -/
theorem mem_eraseUser (clients : Registry) (u : String) (p : String × Client) :
    p ∈ eraseUser clients u ↔ p ∈ clients ∧ p.1 ≠ u := by
  simp [eraseUser, List.mem_filter]

/-- `eraseUser` yields a sublist of the registry. -/
theorem eraseUser_sublist (clients : Registry) (u : String) :
    List.Sublist (eraseUser clients u) clients :=
  List.filter_sublist _

/-- `lookupUser` success gives a registry entry. -/
theorem lookupUser_eq_some (clients : Registry) (u : String) (cl : Client)
    (h : lookupUser clients u = some cl) : (u, cl) ∈ clients := by
  simp only [lookupUser, Option.map_eq_some'] at h
  obtain ⟨p, hp, rfl⟩ := h
  obtain ⟨hmem, hkey⟩ := findUser_eq_some clients u p hp
  have : p = (u, p.2) := by
    cases p
    simp_all
  rwa [this] at hmem

/-! ### Broadcast pass lemmas -/

/-- Every non-excluded registry entry gets a `sendall` invocation during the
send pass. -/
theorem broadcastLoop_sends (fail : Nat → Bool) (message : String) (exclude : Option String)
    (clients : Registry) (u : String) (cl : Client)
    (hmem : (u, cl) ∈ clients) (hne : exclude ≠ some u) :
    sendall fail cl.connId message ∈ (broadcastLoop fail message exclude clients).1 := by
  induction clients with
  | nil => simp at hmem
  | cons p rest ih =>
    obtain ⟨v, cv⟩ := p
    rcases List.mem_cons.mp hmem with h | h
    · rw [Prod.mk.injEq] at h
      obtain ⟨rfl, rfl⟩ := h
      simp only [broadcastLoop, if_neg hne]
      by_cases hf : fail cl.connId = true
      · rw [if_pos hf]
        simp [sendall, hf]
      · rw [if_neg hf]
        simp only [Bool.not_eq_true] at hf
        simp [sendall, hf]
    · simp only [broadcastLoop]
      by_cases he : exclude = some v
      · rw [if_pos he]
        exact ih h
      · rw [if_neg he]
        by_cases hf : fail cv.connId = true
        · rw [if_pos hf]
          exact List.mem_cons_of_mem _ (ih h)
        · rw [if_neg hf]
          exact List.mem_cons_of_mem _ (ih h)

/-- Every event of the send pass is a `sendall` of the broadcast message to
some non-excluded registry entry. -/
theorem broadcastLoop_events_mem (fail : Nat → Bool) (message : String)
    (exclude : Option String) (clients : Registry) (e : Event)
    (h : e ∈ (broadcastLoop fail message exclude clients).1) :
    ∃ u cl, (u, cl) ∈ clients ∧ exclude ≠ some u ∧ e = sendall fail cl.connId message := by
  induction clients with
  | nil => simp [broadcastLoop] at h
  | cons p rest ih =>
    obtain ⟨v, cv⟩ := p
    simp only [broadcastLoop] at h
    by_cases he : exclude = some v
    · rw [if_pos he] at h
      obtain ⟨u, cl, h1, h2, h3⟩ := ih h
      exact ⟨u, cl, List.mem_cons_of_mem _ h1, h2, h3⟩
    · rw [if_neg he] at h
      by_cases hf : fail cv.connId = true
      · rw [if_pos hf] at h
        rcases List.mem_cons.mp h with h | h
        · exact ⟨v, cv, List.mem_cons_self _ _, he, by simp [sendall, hf, h]⟩
        · obtain ⟨u, cl, h1, h2, h3⟩ := ih h
          exact ⟨u, cl, List.mem_cons_of_mem _ h1, h2, h3⟩
      · rw [if_neg hf] at h
        simp only [Bool.not_eq_true] at hf
        rcases List.mem_cons.mp h with h | h
        · exact ⟨v, cv, List.mem_cons_self _ _, he, by simp [sendall, hf, h]⟩
        · obtain ⟨u, cl, h1, h2, h3⟩ := ih h
          exact ⟨u, cl, List.mem_cons_of_mem _ h1, h2, h3⟩

/-- A non-excluded entry whose delivery raises is recorded in
`disconnected_users`. -/
theorem broadcastLoop_disc_mem (fail : Nat → Bool) (message : String)
    (exclude : Option String) (clients : Registry) (u : String) (cl : Client)
    (hmem : (u, cl) ∈ clients) (hne : exclude ≠ some u) (hf : fail cl.connId = true) :
    u ∈ (broadcastLoop fail message exclude clients).2 := by
  induction clients with
  | nil => simp at hmem
  | cons p rest ih =>
    obtain ⟨v, cv⟩ := p
    rcases List.mem_cons.mp hmem with h | h
    · rw [Prod.mk.injEq] at h
      obtain ⟨rfl, rfl⟩ := h
      simp only [broadcastLoop, if_neg hne, if_pos hf]
      exact List.mem_cons_self _ _
    · simp only [broadcastLoop]
      by_cases he : exclude = some v
      · rw [if_pos he]
        exact ih h
      · rw [if_neg he]
        by_cases hfv : fail cv.connId = true
        · rw [if_pos hfv]
          exact List.mem_cons_of_mem _ (ih h)
        · rw [if_neg hfv]
          exact ih h

/-- No event of the send pass is a close. -/
theorem broadcastLoop_events_send (fail : Nat → Bool) (message : String)
    (exclude : Option String) (clients : Registry) (e : Event)
    (h : e ∈ (broadcastLoop fail message exclude clients).1) : e.isClose = false := by
  obtain ⟨u, cl, _, _, rfl⟩ := broadcastLoop_events_mem fail message exclude clients e h
  cases hf : fail cl.connId with
  | true => simp [sendall, hf, Event.isClose]
  | false => simp [sendall, hf, Event.isClose]

/-! ### Removal pass lemmas -/

/-- The removal pass only removes entries: the resulting registry is a
sublist of the input registry. -/
theorem removeDisconnected_sublist :
    ∀ (disc : List String) (clients : Registry),
      List.Sublist (removeDisconnected clients disc).1 clients := by
  intro disc
  induction disc with
  | nil =>
    intro clients
    simp [removeDisconnected]
  | cons u rest ih =>
    intro clients
    simp only [removeDisconnected]
    cases hf : findUser clients u with
    | some p =>
      simp only
      exact (ih (eraseUser clients u)).trans (eraseUser_sublist clients u)
    | none => exact ih clients

/-- A username recorded for removal does not survive the removal pass. -/
theorem removeDisconnected_removes :
    ∀ (disc : List String) (clients : Registry) (x : String) (cl : Client),
      x ∈ disc → (x, cl) ∈ (removeDisconnected clients disc).1 → False := by
  intro disc
  induction disc with
  | nil =>
    intro clients x cl hx
    simp at hx
  | cons u rest ih =>
    intro clients x cl hx hmem
    by_cases hxu : x = u
    · subst hxu
      cases hf : findUser clients x with
      | some p =>
        simp only [removeDisconnected, hf] at hmem
        have hsub := (removeDisconnected_sublist rest (eraseUser clients x)).subset hmem
        exact absurd rfl ((mem_eraseUser clients x (x, cl)).1 hsub).2
      | none =>
        simp only [removeDisconnected, hf] at hmem
        have hsub := (removeDisconnected_sublist rest clients).subset hmem
        exact findUser_eq_none clients x hf cl hsub
    · have hx' : x ∈ rest := by
        rcases List.mem_cons.mp hx with h | h
        · exact absurd h hxu
        · exact h
      cases hf : findUser clients u with
      | some p =>
        simp only [removeDisconnected, hf] at hmem
        exact ih (eraseUser clients u) x cl hx' hmem
      | none =>
        simp only [removeDisconnected, hf] at hmem
        exact ih clients x cl hx' hmem

/-- A recorded session still present in the registry has its handle closed by
the removal pass (the registry has unique keys). -/
theorem removeDisconnected_closes :
    ∀ (disc : List String) (clients : Registry) (x : String) (cl : Client),
      (∀ p q : String × Client, p ∈ clients → q ∈ clients → p.1 = q.1 → p = q) →
      (x, cl) ∈ clients → x ∈ disc →
      Event.closed cl.connId ∈ (removeDisconnected clients disc).2 := by
  intro disc
  induction disc with
  | nil =>
    intro clients x cl _ _ hx
    simp at hx
  | cons u rest ih =>
    intro clients x cl hinj hmem hx
    by_cases hxu : x = u
    · subst hxu
      cases hf : findUser clients x with
      | some p =>
        obtain ⟨hpmem, hpk⟩ := findUser_eq_some clients x p hf
        have hpe : p = (x, cl) := hinj p (x, cl) hpmem hmem (by rw [hpk])
        simp only [removeDisconnected, hf]
        rw [hpe]
        exact List.mem_cons_self _ _
      | none => exact absurd hmem (findUser_eq_none clients x hf cl)
    · have hx' : x ∈ rest := by
        rcases List.mem_cons.mp hx with h | h
        · exact absurd h hxu
        · exact h
      cases hf : findUser clients u with
      | some p =>
        simp only [removeDisconnected, hf]
        have hmem' : (x, cl) ∈ eraseUser clients u :=
          (mem_eraseUser clients u (x, cl)).2 ⟨hmem, hxu⟩
        have hinj' : ∀ p q : String × Client,
            p ∈ eraseUser clients u → q ∈ eraseUser clients u → p.1 = q.1 → p = q :=
          fun p q hp hq =>
            hinj p q ((mem_eraseUser clients u p).1 hp).1 ((mem_eraseUser clients u q).1 hq).1
        exact List.mem_cons_of_mem _ (ih (eraseUser clients u) x cl hinj' hmem' hx')
      | none =>
        simp only [removeDisconnected, hf]
        exact ih clients x cl hinj hmem hx'

/-- Every event of the removal pass is a close. -/
theorem removeDisconnected_events_close :
    ∀ (disc : List String) (clients : Registry) (e : Event),
      e ∈ (removeDisconnected clients disc).2 → e.isClose = true := by
  intro disc
  induction disc with
  | nil =>
    intro clients e h
    simp [removeDisconnected] at h
  | cons u rest ih =>
    intro clients e h
    cases hf : findUser clients u with
    | some p =>
      simp only [removeDisconnected, hf] at h
      rcases List.mem_cons.mp h with h | h
      · simp [h, Event.isClose]
      · exact ih (eraseUser clients u) e h
    | none =>
      simp only [removeDisconnected, hf] at h
      exact ih clients e h

/-! ### Broadcast router assembly -/

/-- The event trace of `broadcast_message` is the send pass followed by the
close events of the removal pass: closing is deferred until the full
iteration has completed. -/
theorem broadcast_message_split (fail : Nat → Bool) (clients : Registry)
    (message : String) (exclude : Option String) :
    ∃ es cs, (broadcast_message fail clients message exclude).2 = es ++ cs ∧
      (∀ e ∈ es, e.isClose = false) ∧ (∀ e ∈ cs, e.isClose = true) :=
  ⟨(broadcastLoop fail message exclude clients).1,
   (removeDisconnected clients (broadcastLoop fail message exclude clients).2).2,
   rfl,
   fun e he => broadcastLoop_events_send fail message exclude clients e he,
   fun e he => removeDisconnected_events_close _ clients e he⟩

/-- No `sendall` invocation of a broadcast pass touches the excluded user's
connection (connection ids are unique per session). -/
theorem broadcast_message_excludes (fail : Nat → Bool) (clients : Registry)
    (m U : String) (cl : Client)
    (hconns : (clients.map (fun p => p.2.connId)).Nodup)
    (hmem : (U, cl) ∈ clients) (msg : String) :
    Event.sent cl.connId msg ∉ (broadcast_message fail clients m (some U)).2 ∧
    Event.sendFailed cl.connId msg ∉ (broadcast_message fail clients m (some U)).2 := by
  constructor
  · intro hin
    simp only [broadcast_message, List.mem_append] at hin
    rcases hin with hin | hin
    · obtain ⟨v, cv, h1, h2, h3⟩ := broadcastLoop_events_mem _ _ _ _ _ hin
      by_cases hf : fail cv.connId = true
      · rw [sendall, if_pos hf] at h3
        exact Event.noConfusion h3
      · rw [sendall, if_neg hf] at h3
        injection h3 with hc _
        have he : (U, cl) = (v, cv) :=
          List.inj_on_of_nodup_map hconns hmem h1 hc
        have huv : U = v := congrArg Prod.fst he
        exact h2 (congrArg some huv)
    · have := removeDisconnected_events_close _ clients _ hin
      simp [Event.isClose] at this
  · intro hin
    simp only [broadcast_message, List.mem_append] at hin
    rcases hin with hin | hin
    · obtain ⟨v, cv, h1, h2, h3⟩ := broadcastLoop_events_mem _ _ _ _ _ hin
      by_cases hf : fail cv.connId = true
      · rw [sendall, if_pos hf] at h3
        injection h3 with hc _
        have he : (U, cl) = (v, cv) :=
          List.inj_on_of_nodup_map hconns hmem h1 hc
        have huv : U = v := congrArg Prod.fst he
        exact h2 (congrArg some huv)
      · rw [sendall, if_neg hf] at h3
        exact Event.noConfusion h3
    · have := removeDisconnected_events_close _ clients _ hin
      simp [Event.isClose] at this

/-! ### Claim theorems -/

/-- C1: invoking `broadcast_message` with `exclude_username = U` performs the
send operation for every registry entry whose username is not `U` (delivery
itself may still fail for a resetting peer, see C3), and performs no send —
delivered or attempted — on `U`'s own connection. -/
theorem C1_broadcast_exclusion (fail : Nat → Bool) (clients : Registry) (m U : String)
    (hconns : (clients.map (fun p => p.2.connId)).Nodup) :
    (∀ u cl, (u, cl) ∈ clients → u ≠ U →
        sendall fail cl.connId m ∈ (broadcast_message fail clients m (some U)).2) ∧
    (∀ cl, (U, cl) ∈ clients → ∀ msg,
        Event.sent cl.connId msg ∉ (broadcast_message fail clients m (some U)).2 ∧
        Event.sendFailed cl.connId msg ∉ (broadcast_message fail clients m (some U)).2) := by
  constructor
  · intro u cl hmem hne
    have h := broadcastLoop_sends fail m (some U) clients u cl hmem
      (by simp only [ne_eq, Option.some.injEq]; exact fun e => hne e.symm)
    simp only [broadcast_message]
    exact List.mem_append_left _ h
  · intro cl hmem msg
    exact broadcast_message_excludes fail clients m U cl hconns hmem msg

/-- C1 witness: in the three-user sample registry with no failures,
broadcasting from alice invokes the send to bob's connection. -/
theorem C1_broadcast_exclusion_witness :
    sendall noFail (Client.mk "10.0.0.2" 2).connId "hi all" ∈
      (broadcast_message noFail sampleClients "hi all" (some "alice")).2 :=
  (C1_broadcast_exclusion noFail sampleClients "hi all" "alice" (by decide)).1
    "bob" ⟨"10.0.0.2", 2⟩ (by decide) (by decide)

/-- C3: in a broadcast pass from `U`, a session `x` whose delivery raises
(`fail` on its connection) does not receive the message, is afterwards
absent from the registry, and has its handle closed; every other non-excluded
session whose connection is healthy still receives the message; and the event
trace is a full send pass followed by the deferred closes. -/
theorem C3_broadcast_eviction (fail : Nat → Bool) (clients : Registry)
    (m U x : String) (clx : Client)
    (hkeys : (clients.map Prod.fst).Nodup)
    (hconns : (clients.map (fun p => p.2.connId)).Nodup)
    (hmem : (x, clx) ∈ clients) (hx : x ≠ U) (hfail : fail clx.connId = true) :
    Event.sent clx.connId m ∉ (broadcast_message fail clients m (some U)).2 ∧
    (∀ cl, (x, cl) ∉ (broadcast_message fail clients m (some U)).1) ∧
    Event.closed clx.connId ∈ (broadcast_message fail clients m (some U)).2 ∧
    (∀ v clv, (v, clv) ∈ clients → v ≠ U → fail clv.connId = false →
        Event.sent clv.connId m ∈ (broadcast_message fail clients m (some U)).2) ∧
    (∃ es cs, (broadcast_message fail clients m (some U)).2 = es ++ cs ∧
        (∀ e ∈ es, e.isClose = false) ∧ (∀ e ∈ cs, e.isClose = true)) := by
  have hdisc : x ∈ (broadcastLoop fail m (some U) clients).2 :=
    broadcastLoop_disc_mem fail m (some U) clients x clx hmem
      (by simp only [ne_eq, Option.some.injEq]; exact fun e => hx e.symm) hfail
  refine ⟨?_, ?_, ?_, ?_, broadcast_message_split fail clients m (some U)⟩
  · intro hin
    simp only [broadcast_message, List.mem_append] at hin
    rcases hin with hin | hin
    · obtain ⟨v, cv, h1, h2, h3⟩ := broadcastLoop_events_mem _ _ _ _ _ hin
      by_cases hf : fail cv.connId = true
      · rw [sendall, if_pos hf] at h3
        exact Event.noConfusion h3
      · rw [sendall, if_neg hf] at h3
        injection h3 with hc _
        have he : (x, clx) = (v, cv) :=
          List.inj_on_of_nodup_map hconns hmem h1 hc
        have hcc : clx = cv := congrArg Prod.snd he
        rw [← hcc] at hf
        exact hf hfail
    · have := removeDisconnected_events_close _ clients _ hin
      simp [Event.isClose] at this
  · intro cl hin
    exact removeDisconnected_removes _ clients x cl hdisc hin
  · have hinj : ∀ p q : String × Client, p ∈ clients → q ∈ clients → p.1 = q.1 → p = q :=
      fun p q hp hq => List.inj_on_of_nodup_map hkeys hp hq
    have h := removeDisconnected_closes _ clients x clx hinj hmem hdisc
    simp only [broadcast_message]
    exact List.mem_append_right _ h
  · intro v clv hv hvne hvok
    have h := broadcastLoop_sends fail m (some U) clients v clv hv
      (by simp only [ne_eq, Option.some.injEq]; exact fun e => hvne e.symm)
    rw [sendall, if_neg (by simp [hvok])] at h
    simp only [broadcast_message]
    exact List.mem_append_left _ h

/-- C3 witness: broadcasting from alice while bob's connection resets closes
bob's handle during the deferred removal phase. -/
theorem C3_broadcast_eviction_witness :
    Event.closed (Client.mk "10.0.0.2" 2).connId ∈
      (broadcast_message failBob sampleClients "hi all" (some "alice")).2 :=
  (C3_broadcast_eviction failBob sampleClients "hi all" "alice" "bob" ⟨"10.0.0.2", 2⟩
      (by decide) (by decide) (by decide) (by decide) (by decide)).2.2.1

/-- C9: `store_message` appends exactly one entry, formatted from the current
timestamp, the sender label, and the text; it returns that entry, and the new
history is the old history with the returned entry appended (so previous
entries are untouched and none is removed). -/
theorem C9_store_message_appends (history : List String) (ts sender message : String) :
    store_message history ts sender message =
      (history ++ [mkEntry ts sender message], mkEntry ts sender message) ∧
    (store_message history ts sender message).1 =
      history ++ [(store_message history ts sender message).2] ∧
    (store_message history ts sender message).1.take history.length = history := by
  refine ⟨rfl, rfl, ?_⟩
  simp [store_message]

/-! ### Negotiation claims -/

/-- C4: a join attempt whose (stripped) requested username is already a
registry key is answered with the taken-name message on the new connection,
the new connection is closed, and the registry and history are left exactly
as they were (in particular the existing holder's session is untouched);
moreover negotiation, whatever its input, preserves uniqueness of usernames
in the registry. -/
theorem C4_duplicate_join_rejected (fail : Nat → Bool) (clients : Registry)
    (history : List String) (ts ip : String) (connId : Nat) (raw : String)
    (hkeys : (clients.map Prod.fst).Nodup)
    (hne : pyStrip raw ≠ "")
    (htaken : containsUser clients (pyStrip raw) = true) :
    negotiate fail clients history ts ip connId (some raw) =
      (NegResult.taken, clients, history,
        [sendall fail connId "Username already taken. Disconnecting.", Event.closed connId]) ∧
    ∀ r, (((negotiate fail clients history ts ip connId r).2.1).map Prod.fst).Nodup := by
  constructor
  · simp only [negotiate]
    rw [if_neg hne, if_pos htaken]
  · intro r
    cases r with
    | none => simpa [negotiate] using hkeys
    | some raw' =>
      simp only [negotiate]
      by_cases h1 : pyStrip raw' = ""
      · rw [if_pos h1]
        simpa using hkeys
      · rw [if_neg h1]
        by_cases h2 : containsUser clients (pyStrip raw') = true
        · rw [if_pos h2]
          simpa using hkeys
        · rw [if_neg h2]
          have hnotmem : pyStrip raw' ∉ clients.map Prod.fst := by
            intro hmem
            obtain ⟨p, hp, he⟩ := List.mem_map.mp hmem
            apply h2
            rw [containsUser_iff]
            refine ⟨p.2, ?_⟩
            rw [← he, Prod.mk.eta]
            exact hp
          have hkeys2 :
              (((clients ++ [(pyStrip raw', (⟨ip, connId⟩ : Client))]).map Prod.fst)).Nodup := by
            simp only [List.map_append, List.map_cons, List.map_nil]
            rw [List.nodup_append]
            refine ⟨hkeys, List.nodup_singleton _, ?_⟩
            intro a ha hb
            rw [List.mem_singleton] at hb
            subst hb
            exact hnotmem ha
          have hsub := removeDisconnected_sublist
            ((broadcastLoop fail ("[Server] " ++ pyStrip raw' ++ " joined the chat")
              (some (pyStrip raw')) (clients ++ [(pyStrip raw', ⟨ip, connId⟩)])).2)
            (clients ++ [(pyStrip raw', ⟨ip, connId⟩)])
          exact (hsub.map Prod.fst).nodup hkeys2

/-- C4 witness: joining the sample registry as a second "alice" is rejected
with the taken-name message, the connection is closed, and nothing changes. -/
theorem C4_duplicate_join_rejected_witness :
    negotiate noFail sampleClients [] "T" "9.9.9.9" 7 (some "alice") =
      (NegResult.taken, sampleClients, [],
        [sendall noFail 7 "Username already taken. Disconnecting.", Event.closed 7]) :=
  (C4_duplicate_join_rejected noFail sampleClients [] "T" "9.9.9.9" 7 "alice"
      (by decide) (by decide) (by decide)).1

/-- C7 counterexample: when negotiation times out (`conn.recv` raises
`socket.timeout`), the complete output of the negotiation path is a single
close of the connection — the event trace contains no send at all, refuting
the claim that the server replies with an error string before closing. -/
theorem C7_counterexample :
    negotiate noFail [] [] "T" "1.2.3.4" 7 none =
      (NegResult.timedOut, [], [], [Event.closed 7]) ∧
    (negotiate noFail [] [] "T" "1.2.3.4" 7 none).2.2.2.all Event.isClose = true := by
  decide

/-- C7 (amended): if username negotiation times out, the server closes the
connection silently — it sends no reply, unlike the taken-name case, where
the error string is sent before closing; in neither case does a registration
occur (registry and history are unchanged). -/
theorem C7_timeout_closes_silently (fail : Nat → Bool) (clients : Registry)
    (history : List String) (ts ip : String) (connId : Nat) (raw : String)
    (hne : pyStrip raw ≠ "")
    (htaken : containsUser clients (pyStrip raw) = true) :
    negotiate fail clients history ts ip connId none =
      (NegResult.timedOut, clients, history, [Event.closed connId]) ∧
    negotiate fail clients history ts ip connId (some raw) =
      (NegResult.taken, clients, history,
        [sendall fail connId "Username already taken. Disconnecting.", Event.closed connId]) := by
  constructor
  · rfl
  · simp only [negotiate]
    rw [if_neg hne, if_pos htaken]

/-- C7 witness: bob's duplicate join against the sample registry receives the
taken-name string and is closed without registration. -/
theorem C7_timeout_closes_silently_witness :
    negotiate noFail sampleClients [] "T" "8.8.8.8" 9 (some "bob") =
      (NegResult.taken, sampleClients, [],
        [sendall noFail 9 "Username already taken. Disconnecting.", Event.closed 9]) :=
  (C7_timeout_closes_silently noFail sampleClients [] "T" "8.8.8.8" 9 "bob"
      (by decide) (by decide)).2

/-! ### Command interpreter claims -/

/-- C5 counterexample: a received line that is empty after trimming does not
get the help reply — `if not data: break` exits the read loop, so the session
ends with no events at all, refuting the claim that such a line is answered
with the help text and leaves the session active. -/
theorem C5_counterexample :
    processLine noFail sampleClients [] "T" "alice" "10.0.0.1" 1 " " =
      (LoopCtl.stop, sampleClients, [], []) := by decide

/-- C5 (amended): a line that is empty after trimming ends the session
(`break`, i.e. `Closing`) without any reply; every line that is nonempty
after trimming and matches none of the verbs `list`, `broadcast `, `send `,
`exit` is answered with the help text listing the four commands, and the
session remains active. -/
theorem C5_unrecognized_gets_help (fail : Nat → Bool) (clients : Registry)
    (history : List String) (ts username ip : String) (connId : Nat) (data : String)
    (htrim : pyStrip data = data)
    (hne : data ≠ "")
    (hnl : data ≠ "list")
    (hnb : pyStartsWith data "broadcast " = false)
    (hns : pyStartsWith data "send " = false)
    (hnx : data ≠ "exit")
    (hok : fail connId = false) :
    (∀ raw, pyStrip raw = "" →
      processLine fail clients history ts username ip connId raw =
        (LoopCtl.stop, clients, history, [])) ∧
    processLine fail clients history ts username ip connId data =
      (LoopCtl.stay, clients, history ++ [mkEntry ts (username ++ "@" ++ ip) data],
       [Event.sent connId get_help]) := by
  constructor
  · intro raw hraw
    simp [processLine, hraw]
  · simp only [processLine, htrim]
    rw [if_neg hne, if_neg hnl]
    simp only [hnb, hns, reduceIte]
    rw [if_neg hnx]
    simp [replyTo, hok, store_message]

/-- C5 witness: the unrecognized line `hello` from alice is answered with the
help text and the loop continues. -/
theorem C5_unrecognized_gets_help_witness :
    processLine noFail sampleClients [] "T" "alice" "10.0.0.1" 1 "hello" =
      (LoopCtl.stay, sampleClients,
       [] ++ [mkEntry "T" ("alice" ++ "@" ++ "10.0.0.1") "hello"],
       [Event.sent 1 get_help]) :=
  (C5_unrecognized_gets_help noFail sampleClients [] "T" "alice" "10.0.0.1" 1 "hello"
      (by decide) (by decide) (by decide) (by decide) (by decide) (by decide) rfl).2

/-- C6: a `send` line is split into at most 3 space-separated tokens (verb,
target username, rest of line as the message, which may itself contain
spaces); when the split yields fewer than 3 tokens the dispatcher answers
with the usage reply, leaving registry and history otherwise untouched — the
function is total, so no exception escapes. -/
theorem C6_send_tokenization (fail : Nat → Bool) (clients : Registry)
    (history : List String) (ts username ip : String) (connId : Nat) (data : String)
    (htrim : pyStrip data = data)
    (hpref : pyStartsWith data "send " = true)
    (hlen : (pySplit ' ' 2 data).length < 3) :
    (∀ s, (pySplit ' ' 2 s).length ≤ 3) ∧
    (processLine fail clients history ts username ip connId data).2.1 = clients ∧
    (processLine fail clients history ts username ip connId data).2.2.1 =
      history ++ [mkEntry ts (username ++ "@" ++ ip) data] ∧
    (processLine fail clients history ts username ip connId data).2.2.2 =
      [sendall fail connId "Usage: send <username> <message>"] := by
  have hred : processLine fail clients history ts username ip connId data =
      ((replyTo fail connId "Usage: send <username> <message>").1, clients,
       (store_message history ts (username ++ "@" ++ ip) data).1,
       (replyTo fail connId "Usage: send <username> <message>").2) := by
    obtain ⟨hne, hnl, hnx, hnb⟩ := sendPref_facts data hpref
    simp only [processLine, htrim]
    rw [if_neg hne, if_neg hnl]
    simp only [hnb, hpref, reduceIte]
    rcases hp : pySplit ' ' 2 data with _ | ⟨a, _ | ⟨b, _ | ⟨c, rest⟩⟩⟩
    · simp [hp]
    · simp [hp]
    · simp [hp]
    · rw [hp] at hlen
      exact absurd hlen (by simp only [List.length_cons]; omega)
  refine ⟨fun s => pySplit_length_le ' ' 2 s, ?_, ?_, ?_⟩
  · rw [hred]
  · rw [hred]
    simp [store_message]
  · rw [hred]
    by_cases hk : fail connId = true <;> simp [replyTo, sendall, hk]

/-- C6 witness: `send bob` (no message) is answered with the usage reply. -/
theorem C6_send_tokenization_witness :
    (processLine noFail sampleClients [] "T" "alice" "10.0.0.1" 1 "send bob").2.2.2 =
      [sendall noFail 1 "Usage: send <username> <message>"] :=
  (C6_send_tokenization noFail sampleClients [] "T" "alice" "10.0.0.1" 1 "send bob"
      (by decide) (by decide) (by decide)).2.2.2

/-- C2: for a line parsed as `send A m` from user `B`: if `A` is a registry
key (and its connection is healthy, the failing case being the subject of
C10), exactly one message is sent — to `A`'s session, reading
`[Private from B] m` — and nothing else changes beyond the unconditional
line log; if `A` is not a registry key, the only send is the reply
`User A not found.` on `B`'s own connection, and the registry is unchanged,
so no other session is affected. -/
theorem C2_private_delivery (fail : Nat → Bool) (clients : Registry)
    (history : List String) (ts B ip : String) (connId : Nat) (data A m : String)
    (htrim : pyStrip data = data)
    (hpref : pyStartsWith data "send " = true)
    (hsplit : pySplit ' ' 2 data = ["send", A, m]) :
    (∀ tcl, lookupUser clients A = some tcl → fail tcl.connId = false →
      processLine fail clients history ts B ip connId data =
        (LoopCtl.stay, clients, history ++ [mkEntry ts (B ++ "@" ++ ip) data],
         [Event.sent tcl.connId ("[Private from " ++ B ++ "] " ++ m)])) ∧
    (lookupUser clients A = none →
      processLine fail clients history ts B ip connId data =
        ((if fail connId = true then LoopCtl.stop else LoopCtl.stay), clients,
         history ++ [mkEntry ts (B ++ "@" ++ ip) data],
         [sendall fail connId ("User " ++ A ++ " not found.")])) := by
  obtain ⟨hne, hnl, hnx, hnb⟩ := sendPref_facts data hpref
  constructor
  · intro tcl hl hok
    simp only [processLine, htrim]
    rw [if_neg hne, if_neg hnl]
    simp only [hnb, hpref, reduceIte, hsplit, hl]
    simp [hok, store_message]
  · intro hl
    simp only [processLine, htrim]
    rw [if_neg hne, if_neg hnl]
    simp only [hnb, hpref, reduceIte, hsplit, hl]
    by_cases hk : fail connId = true <;> simp [replyTo, sendall, hk, store_message]

/-- C2 witness: `send bob hi there` from alice delivers exactly one private
message to bob's connection. -/
theorem C2_private_delivery_witness :
    processLine noFail sampleClients [] "T" "alice" "10.0.0.1" 1 "send bob hi there" =
      (LoopCtl.stay, sampleClients,
       [] ++ [mkEntry "T" ("alice" ++ "@" ++ "10.0.0.1") "send bob hi there"],
       [Event.sent (Client.mk "10.0.0.2" 2).connId
          ("[Private from " ++ "alice" ++ "] " ++ "hi there")]) :=
  (C2_private_delivery noFail sampleClients [] "T" "alice" "10.0.0.1" 1
      "send bob hi there" "bob" "hi there" (by decide) (by decide) (by decide)).1
    ⟨"10.0.0.2", 2⟩ rfl rfl

/-- C10 counterexample: when a private relay raises, the chat-history field
of the server state does change (the received line is logged before
dispatch), refuting the claim that no field of the server state other than
the reply changes; the trace shows the failed relay and the reply. -/
theorem C10_counterexample :
    (processLine failBob sampleClients [] "T" "alice" "10.0.0.1" 1 "send bob hi").2.2.1 =
      ["[T] alice@10.0.0.1: send bob hi"] ∧
    ["[T] alice@10.0.0.1: send bob hi"] ≠ ([] : List String) ∧
    (processLine failBob sampleClients [] "T" "alice" "10.0.0.1" 1 "send bob hi").2.2.2 =
      [Event.sendFailed 2 "[Private from alice] hi",
       Event.sent 1 "User bob is not connected."] := by decide

/-- C10 (amended): when relaying `send A m` raises a connection error on the
target's socket, the only reply goes to the sender (`User A is not
connected.`), the registry is returned unchanged — the target's entry
remains, with no close of its handle, unlike a failed broadcast delivery,
which evicts — and, apart from the unconditional chat-history line log,
nothing else changes. -/
theorem C10_failed_private_no_evict (fail : Nat → Bool) (clients : Registry)
    (history : List String) (ts B ip : String) (connId : Nat) (data A m : String)
    (tcl : Client)
    (htrim : pyStrip data = data)
    (hpref : pyStartsWith data "send " = true)
    (hsplit : pySplit ' ' 2 data = ["send", A, m])
    (hl : lookupUser clients A = some tcl)
    (hfail : fail tcl.connId = true)
    (hok : fail connId = false) :
    processLine fail clients history ts B ip connId data =
      (LoopCtl.stay, clients, history ++ [mkEntry ts (B ++ "@" ++ ip) data],
       [Event.sendFailed tcl.connId ("[Private from " ++ B ++ "] " ++ m),
        Event.sent connId ("User " ++ A ++ " is not connected.")]) ∧
    (A, tcl) ∈ clients ∧
    (∀ c, Event.closed c ∉
      (processLine fail clients history ts B ip connId data).2.2.2) := by
  obtain ⟨hne, hnl, hnx, hnb⟩ := sendPref_facts data hpref
  have hred : processLine fail clients history ts B ip connId data =
      (LoopCtl.stay, clients, history ++ [mkEntry ts (B ++ "@" ++ ip) data],
       [Event.sendFailed tcl.connId ("[Private from " ++ B ++ "] " ++ m),
        Event.sent connId ("User " ++ A ++ " is not connected.")]) := by
    simp only [processLine, htrim]
    rw [if_neg hne, if_neg hnl]
    simp only [hnb, hpref, reduceIte, hsplit, hl]
    simp [hfail, replyTo, hok, store_message]
  refine ⟨hred, lookupUser_eq_some clients A tcl hl, ?_⟩
  intro c
  rw [hred]
  simp

/-- C10 witness: alice's `send bob hi` with bob's socket resetting leaves the
registry (and bob's entry) untouched and replies only to alice. -/
theorem C10_failed_private_no_evict_witness :
    processLine failBob sampleClients [] "T" "alice" "10.0.0.1" 1 "send bob hi" =
      (LoopCtl.stay, sampleClients,
       [] ++ [mkEntry "T" ("alice" ++ "@" ++ "10.0.0.1") "send bob hi"],
       [Event.sendFailed (Client.mk "10.0.0.2" 2).connId
          ("[Private from " ++ "alice" ++ "] " ++ "hi"),
        Event.sent 1 ("User " ++ "bob" ++ " is not connected.")]) :=
  (C10_failed_private_no_evict failBob sampleClients [] "T" "alice" "10.0.0.1" 1
      "send bob hi" "bob" "hi" ⟨"10.0.0.2", 2⟩
      (by decide) (by decide) (by decide) rfl rfl rfl).1

/-! ### Closing-state claim -/

/-- C8 counterexample: when bob exits, the entry appended to the chat history
is formatted by `store_message` from the timestamp, the sender label
`Server`, and the text `bob@10.0.0.2 left the chat` — it is not the
announcement string `[Server] bob left the chat` the claim says is logged
(that string is only broadcast, not logged). -/
theorem C8_counterexample :
    (cleanup noFail sampleClients [] "T" "bob" "10.0.0.2" 2).2.1 =
      ["[T] Server: bob@10.0.0.2 left the chat"] ∧
    "[T] Server: bob@10.0.0.2 left the chat" ≠ "[Server] bob left the chat" ∧
    (∀ e ∈ (cleanup noFail sampleClients [] "T" "bob" "10.0.0.2" 2).2.1,
      e ≠ "[Server] bob left the chat") := by decide

/-- C8 (amended): when a registered user `U` reaches Closing (for example by
sending the exact line `exit`, which breaks the read loop), `U`'s username is
removed from the Session Registry, a leave event is logged as the entry
formatted from the timestamp, sender label `Server`, and text
`U@ip left the chat`, the announcement `[Server] U left the chat` is sent to
every remaining session excluding `U` (never to `U`'s own connection), and
`U`'s connection is closed; since `U` is no longer a registry key, `U`
appears in no subsequent `list` reply. -/
theorem C8_exit_cleanup (fail : Nat → Bool) (clients : Registry)
    (history : List String) (ts U ip : String) (clU : Client)
    (hconns : (clients.map (fun p => p.2.connId)).Nodup)
    (hU : U ≠ "")
    (hmem : (U, clU) ∈ clients) :
    (processLine fail clients history ts U ip clU.connId "exit").1 = LoopCtl.stop ∧
    (∀ p ∈ (cleanup fail clients history ts U ip clU.connId).1, p.1 ≠ U) ∧
    (cleanup fail clients history ts U ip clU.connId).2.1 =
      history ++ [mkEntry ts "Server" (U ++ "@" ++ ip ++ " left the chat")] ∧
    (∀ v clv, (v, clv) ∈ clients → v ≠ U →
      sendall fail clv.connId ("[Server] " ++ U ++ " left the chat") ∈
        (cleanup fail clients history ts U ip clU.connId).2.2) ∧
    (∀ msg, Event.sent clU.connId msg ∉
        (cleanup fail clients history ts U ip clU.connId).2.2) ∧
    Event.closed clU.connId ∈ (cleanup fail clients history ts U ip clU.connId).2.2 := by
  have hc : containsUser clients U = true := (containsUser_iff clients U).2 ⟨clU, hmem⟩
  have hguard : (U != "" && containsUser clients U) = true := by
    simp [hc, bne_iff_ne, hU]
  refine ⟨rfl, ?_, ?_, ?_, ?_, ?_⟩
  · simp only [cleanup, if_pos hguard]
    intro p hp
    exact ((mem_eraseUser _ U p).1 hp).2
  · simp only [cleanup, if_pos hguard]
    simp [store_message]
  · intro v clv hv hvne
    simp only [cleanup, if_pos hguard]
    have h := broadcastLoop_sends fail ("[Server] " ++ U ++ " left the chat") (some U)
      clients v clv hv
      (by simp only [ne_eq, Option.some.injEq]; exact fun e => hvne e.symm)
    simp only [broadcast_message]
    exact List.mem_append_left _ (List.mem_append_left _ h)
  · intro msg
    simp only [cleanup, if_pos hguard]
    intro hin
    rcases List.mem_append.mp hin with hin | hin
    · exact (broadcast_message_excludes fail clients
        ("[Server] " ++ U ++ " left the chat") U clU hconns hmem msg).1 hin
    · simp at hin
  · simp only [cleanup, if_pos hguard]
    exact List.mem_append_right _ (List.mem_singleton.mpr rfl)

/-- C8 witness: bob's exit against the sample registry logs the leave entry,
announces to the others, and closes bob's connection. -/
theorem C8_exit_cleanup_witness :
    (cleanup noFail sampleClients [] "T" "bob" "10.0.0.2"
        (Client.mk "10.0.0.2" 2).connId).2.1 =
      [] ++ [mkEntry "T" "Server" ("bob" ++ "@" ++ "10.0.0.2" ++ " left the chat")] :=
  (C8_exit_cleanup noFail sampleClients [] "T" "bob" "10.0.0.2" ⟨"10.0.0.2", 2⟩
      (by decide) (by decide) (by decide)).2.2.1
